import Mathlib

/-!
Verification of the bare-metal Tetris kernel (`kernel.c`).

The file shallow-embeds the routines the specification's claims are about:
the playfield grid becomes a total function `Int → Int → Int` (a C
`int grid[10][20]` read as `grid x y`, 0 meaning an empty cell), a tetromino
`int tetrominoe[4][2]` becomes an eight-field structure of coordinates, and
each C function becomes a Lean function with the same control flow.  Device
writes (`outb`, the VGA array) are modelled as explicit lists of
(port/index, value) pairs.  Theorems below settle the claims against these
embeddings.
-/

namespace BareMetalTetris

/-- The playfield `int grid[GRID_SIZE_X][GRID_SIZE_Y]` (10 × 20), read as
`grid x y`; value 0 is an unoccupied cell, any other value the colour of an
occupied cell. -/
def Grid : Type := Int → Int → Int

/-- One C assignment `grid[x][y] = v`. -/
def upd (g : Grid) (x y v : Int) : Grid :=
  fun a b => if a = x ∧ b = y then v else g a b

/-- `int tetrominoe[4][2]`: cell k of the piece is `(xk, yk)`
(`tetrominoe[k][0]` and `tetrominoe[k][1]`). -/
structure Tet where
  x0 : Int
  y0 : Int
  x1 : Int
  y1 : Int
  x2 : Int
  y2 : Int
  x3 : Int
  y3 : Int
deriving DecidableEq

/-- `check_tetrominoe_collision` (kernel.c lines 294-308): the one boolean
expression of the C function, conjunct for conjunct. -/
def check_tetrominoe_collision (t : Tet) (grid : Grid) : Bool :=
  decide (t.x0 ≥ 0) && decide (t.x0 < 10)
    && decide (t.y0 ≥ 0) && decide (t.y0 < 20)
    && decide (t.x1 ≥ 0) && decide (t.x1 < 10)
    && decide (t.y1 ≥ 0) && decide (t.y1 < 20)
    && decide (t.x2 ≥ 0) && decide (t.x2 < 10)
    && decide (t.y2 ≥ 0) && decide (t.y2 < 20)
    && decide (t.x3 ≥ 0) && decide (t.x3 < 10)
    && decide (t.y3 ≥ 0) && decide (t.y3 < 20)
    && (grid t.x0 t.y0 == 0)
    && (grid t.x1 t.y1 == 0)
    && (grid t.x2 t.y2 == 0)
    && (grid t.x3 t.y3 == 0)

/-- Working characterisation of the collision check, shared by the proofs
below. -/
lemma check_spec (t : Tet) (grid : Grid) :
    check_tetrominoe_collision t grid = true ↔
      ((0 ≤ t.x0 ∧ t.x0 < 10 ∧ 0 ≤ t.y0 ∧ t.y0 < 20 ∧ grid t.x0 t.y0 = 0) ∧
       (0 ≤ t.x1 ∧ t.x1 < 10 ∧ 0 ≤ t.y1 ∧ t.y1 < 20 ∧ grid t.x1 t.y1 = 0) ∧
       (0 ≤ t.x2 ∧ t.x2 < 10 ∧ 0 ≤ t.y2 ∧ t.y2 < 20 ∧ grid t.x2 t.y2 = 0) ∧
       (0 ≤ t.x3 ∧ t.x3 < 10 ∧ 0 ≤ t.y3 ∧ t.y3 < 20 ∧ grid t.x3 t.y3 = 0)) := by
  simp only [check_tetrominoe_collision, Bool.and_eq_true, decide_eq_true_eq, beq_iff_eq,
    ge_iff_le]
  tauto

/-- C1: `check_tetrominoe_collision` returns true if and only if every one of
the four cells (x, y) of the placement satisfies 0 ≤ x < 10 and 0 ≤ y < 20
and the corresponding grid cell is 0 (unoccupied).  The grid argument is the
playfield as handed over by the caller, which has cleared the piece's own
current cells first, so a piece never collides with itself. -/
theorem check_tetrominoe_collision_iff (t : Tet) (grid : Grid) :
    check_tetrominoe_collision t grid = true ↔
      ((0 ≤ t.x0 ∧ t.x0 < 10 ∧ 0 ≤ t.y0 ∧ t.y0 < 20 ∧ grid t.x0 t.y0 = 0) ∧
       (0 ≤ t.x1 ∧ t.x1 < 10 ∧ 0 ≤ t.y1 ∧ t.y1 < 20 ∧ grid t.x1 t.y1 = 0) ∧
       (0 ≤ t.x2 ∧ t.x2 < 10 ∧ 0 ≤ t.y2 ∧ t.y2 < 20 ∧ grid t.x2 t.y2 = 0) ∧
       (0 ≤ t.x3 ∧ t.x3 < 10 ∧ 0 ≤ t.y3 ∧ t.y3 < 20 ∧ grid t.x3 t.y3 = 0)) :=
  check_spec t grid

/-- The four assignments `grid[tetrominoe[k][0]][tetrominoe[k][1]] = 0` that
clear the piece's current cells inside `move_tetrominoe` and
`rotate_tetrominoe`. -/
def clear_tet (t : Tet) (g : Grid) : Grid :=
  upd (upd (upd (upd g t.x0 t.y0 0) t.x1 t.y1 0) t.x2 t.y2 0) t.x3 t.y3 0

/-- The four assignments writing `block_colour` back at the piece's cells. -/
def place_tet (t : Tet) (colour : Int) (g : Grid) : Grid :=
  upd (upd (upd (upd g t.x0 t.y0 colour) t.x1 t.y1 colour) t.x2 t.y2 colour)
    t.x3 t.y3 colour

/-- Does the piece occupy cell (x, y)?  Used to state that a grid cell is not
one of the piece's own four cells. -/
def occupies (t : Tet) (x y : Int) : Bool :=
  (t.x0 == x && t.y0 == y) || (t.x1 == x && t.y1 == y)
    || (t.x2 == x && t.y2 == y) || (t.x3 == x && t.y3 == y)

/-- The collision check fails as soon as cell 0 of the candidate placement is
out of bounds or lands on an occupied grid cell. -/
lemma check_false_of_cell0 (t : Tet) (g : Grid)
    (h : ¬(0 ≤ t.x0 ∧ t.x0 < 10 ∧ 0 ≤ t.y0 ∧ t.y0 < 20) ∨ g t.x0 t.y0 ≠ 0) :
    check_tetrominoe_collision t g = false := by
  rw [Bool.eq_false_iff, ne_eq, check_spec]
  intro hT
  rcases hT with ⟨⟨a1, a2, a3, a4, a5⟩, -, -, -⟩
  rcases h with h | h
  · exact h ⟨a1, a2, a3, a4⟩
  · exact h a5

/-- Clearing the piece's cells does not change the grid at a cell the piece
does not occupy. -/
lemma clear_tet_eval_not_occupied (t : Tet) (g : Grid) (x y : Int)
    (h : occupies t x y = false) : clear_tet t g x y = g x y := by
  simp only [occupies, Bool.or_eq_false_iff, Bool.and_eq_false_iff,
    beq_eq_false_iff_ne, ne_eq] at h
  simp only [clear_tet, upd]
  split_ifs with c3 c2 c1 c0
  · exfalso; omega
  · exfalso; omega
  · exfalso; omega
  · exfalso; omega
  · rfl

/-- `move_tetrominoe` (kernel.c lines 436-483).  `MOVE_DOWN` = 0,
`MOVE_LEFT` = 1, `MOVE_RIGHT` = 2.  Returns (moved, final piece, final grid):
the C function's int return value, its in-out `tetrominoe` and its in-out
`grid`. -/
def move_tetrominoe (t : Tet) (grid : Grid) (direction : Int) : Int × Tet × Grid :=
  let n : Tet :=
    if direction = 0 then ⟨t.x0, t.y0 + 1, t.x1, t.y1 + 1, t.x2, t.y2 + 1, t.x3, t.y3 + 1⟩
    else if direction = 1 then ⟨t.x0 - 1, t.y0, t.x1 - 1, t.y1, t.x2 - 1, t.y2, t.x3 - 1, t.y3⟩
    else if direction = 2 then ⟨t.x0 + 1, t.y0, t.x1 + 1, t.y1, t.x2 + 1, t.y2, t.x3 + 1, t.y3⟩
    else t
  let block_colour := grid t.x0 t.y0
  let cleared := clear_tet t grid
  let moved : Int := if check_tetrominoe_collision n cleared then 1 else 0
  let final : Tet := if check_tetrominoe_collision n cleared then n else t
  (moved, final, place_tet final block_colour cleared)

/-- C5: if the piece's four cells are all marked in the grid with its colour
`c`, and for every cell the cell one row below is out of bounds or occupied by
a non-piece cell, then `move_tetrominoe(piece, grid, MOVE_DOWN)` returns 0
("not moved"), leaves the four coordinates unchanged, and restores the grid to
exactly its pre-call contents (the clear-evaluate-restore sequence has no net
effect on a failed move). -/
theorem move_tetrominoe_down_blocked (t : Tet) (g : Grid) (c : Int)
    (hm0 : g t.x0 t.y0 = c) (hm1 : g t.x1 t.y1 = c)
    (hm2 : g t.x2 t.y2 = c) (hm3 : g t.x3 t.y3 = c)
    (hb0 : ¬(0 ≤ t.x0 ∧ t.x0 < 10 ∧ 0 ≤ t.y0 + 1 ∧ t.y0 + 1 < 20) ∨
      (occupies t t.x0 (t.y0 + 1) = false ∧ g t.x0 (t.y0 + 1) ≠ 0))
    (hb1 : ¬(0 ≤ t.x1 ∧ t.x1 < 10 ∧ 0 ≤ t.y1 + 1 ∧ t.y1 + 1 < 20) ∨
      (occupies t t.x1 (t.y1 + 1) = false ∧ g t.x1 (t.y1 + 1) ≠ 0))
    (hb2 : ¬(0 ≤ t.x2 ∧ t.x2 < 10 ∧ 0 ≤ t.y2 + 1 ∧ t.y2 + 1 < 20) ∨
      (occupies t t.x2 (t.y2 + 1) = false ∧ g t.x2 (t.y2 + 1) ≠ 0))
    (hb3 : ¬(0 ≤ t.x3 ∧ t.x3 < 10 ∧ 0 ≤ t.y3 + 1 ∧ t.y3 + 1 < 20) ∨
      (occupies t t.x3 (t.y3 + 1) = false ∧ g t.x3 (t.y3 + 1) ≠ 0)) :
    (move_tetrominoe t g 0).1 = 0 ∧ (move_tetrominoe t g 0).2.1 = t ∧
      (move_tetrominoe t g 0).2.2 = g := by
  have hcheck : check_tetrominoe_collision
      ⟨t.x0, t.y0 + 1, t.x1, t.y1 + 1, t.x2, t.y2 + 1, t.x3, t.y3 + 1⟩
      (clear_tet t g) = false := by
    apply check_false_of_cell0
    rcases hb0 with h | h
    · exact Or.inl h
    · refine Or.inr ?_
      show clear_tet t g t.x0 (t.y0 + 1) ≠ 0
      rw [clear_tet_eval_not_occupied t g _ _ h.1]
      exact h.2
  have key : move_tetrominoe t g 0 = (0, t, place_tet t (g t.x0 t.y0) (clear_tet t g)) := by
    simp [move_tetrominoe, hcheck]
  refine ⟨by rw [key], by rw [key], ?_⟩
  rw [key]
  show place_tet t (g t.x0 t.y0) (clear_tet t g) = g
  funext a b
  simp only [place_tet, clear_tet, upd]
  split_ifs with h3 h2 h1 h0
  · obtain ⟨rfl, rfl⟩ := h3
    rw [hm0, hm3]
  · obtain ⟨rfl, rfl⟩ := h2
    rw [hm0, hm2]
  · obtain ⟨rfl, rfl⟩ := h1
    rw [hm0, hm1]
  · obtain ⟨rfl, rfl⟩ := h0
    rw [hm0]
  · rfl

/-- The piece used by the C5 witness: a straight piece resting on the
playfield's bottom row. -/
def c5tet : Tet := ⟨0, 19, 1, 19, 2, 19, 3, 19⟩

/-- The grid used by the C5 witness: the piece's cells marked with colour 7,
everything else empty. -/
def c5grid : Grid := fun a b => if b = 19 ∧ 0 ≤ a ∧ a < 4 then 7 else 0

/-- C5 witness: a concrete blocked `MOVE_DOWN` (the row below the piece is out
of bounds), settled by the theorem at that input. -/
theorem move_tetrominoe_down_blocked_witness :
    (move_tetrominoe c5tet c5grid 0).1 = 0 ∧ (move_tetrominoe c5tet c5grid 0).2.1 = c5tet ∧
      (move_tetrominoe c5tet c5grid 0).2.2 = c5grid :=
  move_tetrominoe_down_blocked c5tet c5grid 7 (by decide) (by decide) (by decide) (by decide)
    (by decide) (by decide) (by decide) (by decide)

/-- `max_ext` selection inside `rotate_tetrominoe` (the C switch on the piece
type).  The C code leaves `max_ext` uninitialized for a type outside 0-6; the
0 returned there is an arbitrary model choice, and the game only calls the
function with types 0-6. -/
def max_ext (type : Int) : Int :=
  if type = 0 then 4
  else if type = 1 then 3
  else if type = 2 then 3
  else if type = 3 then 2
  else if type = 4 then 3
  else if type = 5 then 3
  else if type = 6 then 3
  else 0

/-- `lowest_x` of `rotate_tetrominoe`: the C if-cascade computes the minimum
of the four x coordinates. -/
def lowest_x (t : Tet) : Int := min (min (min t.x0 t.x1) t.x2) t.x3

/-- `lowest_y` of `rotate_tetrominoe`: the minimum of the four y
coordinates. -/
def lowest_y (t : Tet) : Int := min (min (min t.y0 t.y1) t.y2) t.y3

/-- The maximum of the four x coordinates (used to state the drift of four
rotations; not computed by the C code). -/
def highest_x (t : Tet) : Int := max (max (max t.x0 t.x1) t.x2) t.x3

/-- The maximum of the four y coordinates. -/
def highest_y (t : Tet) : Int := max (max (max t.y0 t.y1) t.y2) t.y3

/-- The rotated placement `rotate_tetrominoe` computes before its collision
check: translate each cell to the local frame at (lowest_x, lowest_y), apply
`(lx, ly) → (ly, 1 - (lx - (max_ext - 2)))`, translate back. -/
def rotate_candidate (t : Tet) (type : Int) : Tet :=
  { x0 := (t.y0 - lowest_y t) + lowest_x t
    y0 := (1 - ((t.x0 - lowest_x t) - (max_ext type - 2))) + lowest_y t
    x1 := (t.y1 - lowest_y t) + lowest_x t
    y1 := (1 - ((t.x1 - lowest_x t) - (max_ext type - 2))) + lowest_y t
    x2 := (t.y2 - lowest_y t) + lowest_x t
    y2 := (1 - ((t.x2 - lowest_x t) - (max_ext type - 2))) + lowest_y t
    x3 := (t.y3 - lowest_y t) + lowest_x t
    y3 := (1 - ((t.x3 - lowest_x t) - (max_ext type - 2))) + lowest_y t }

/-- `rotate_tetrominoe` (kernel.c lines 485-577): compute the rotated
candidate, clear the piece's cells, commit the candidate exactly when the
collision check passes, and write `block_colour` back at the final cells.
Returns (final piece, final grid). -/
def rotate_tetrominoe (t : Tet) (grid : Grid) (type : Int) : Tet × Grid :=
  let n := rotate_candidate t type
  let block_colour := grid t.x0 t.y0
  let cleared := clear_tet t grid
  let final : Tet := if check_tetrominoe_collision n cleared then n else t
  (final, place_tet final block_colour cleared)

/-- The vertical drift four accepted rotations add to every cell of the
piece, in terms of the piece's bounding box and its `max_ext` constant.  It
is 0 for the square piece and positive for every other piece shape (2 for the
three-wide pieces, 6 for the horizontal straight piece). -/
def rot4_drift (t : Tet) (type : Int) : Int :=
  2 * (2 * (max_ext type - 1) - (highest_x t - lowest_x t) - (highest_y t - lowest_y t))

set_option maxHeartbeats 1000000 in
lemma rot_lowest_x (t : Tet) (ty : Int) :
    lowest_x (rotate_candidate t ty) = lowest_x t := by
  simp only [rotate_candidate, lowest_x, lowest_y]
  omega

set_option maxHeartbeats 1000000 in
lemma rot_lowest_y (t : Tet) (ty : Int) :
    lowest_y (rotate_candidate t ty) =
      max_ext ty - 1 + lowest_x t + lowest_y t - highest_x t := by
  simp only [rotate_candidate, lowest_x, lowest_y, highest_x]
  omega

set_option maxHeartbeats 1000000 in
lemma rot_highest_x (t : Tet) (ty : Int) :
    highest_x (rotate_candidate t ty) = highest_y t - lowest_y t + lowest_x t := by
  simp only [rotate_candidate, lowest_x, lowest_y, highest_x, highest_y]
  omega

set_option maxHeartbeats 1000000 in
lemma rot_highest_y (t : Tet) (ty : Int) :
    highest_y (rotate_candidate t ty) = max_ext ty - 1 + lowest_y t := by
  simp only [rotate_candidate, lowest_x, lowest_y, highest_y]
  omega

set_option maxHeartbeats 1000000 in
lemma rot_coords (t : Tet) (ty : Int) :
    (rotate_candidate t ty).x0 = t.y0 - lowest_y t + lowest_x t ∧
    (rotate_candidate t ty).y0 = max_ext ty - 1 + lowest_x t + lowest_y t - t.x0 ∧
    (rotate_candidate t ty).x1 = t.y1 - lowest_y t + lowest_x t ∧
    (rotate_candidate t ty).y1 = max_ext ty - 1 + lowest_x t + lowest_y t - t.x1 ∧
    (rotate_candidate t ty).x2 = t.y2 - lowest_y t + lowest_x t ∧
    (rotate_candidate t ty).y2 = max_ext ty - 1 + lowest_x t + lowest_y t - t.x2 ∧
    (rotate_candidate t ty).x3 = t.y3 - lowest_y t + lowest_x t ∧
    (rotate_candidate t ty).y3 = max_ext ty - 1 + lowest_x t + lowest_y t - t.x3 := by
  refine ⟨?_, ?_, ?_, ?_, ?_, ?_, ?_, ?_⟩ <;> simp only [rotate_candidate] <;> omega

/-- One cell's coordinates through four rotation steps, as linear arithmetic
over the anchor values of the four intermediate placements. -/
lemma rot4_cell {m L0 M0 H0 K0 L1 M1 H1 K1 L2 M2 H2 K2 L3 M3 x y X1 Y1 X2 Y2 X3 Y3 X4 Y4 : Int}
    (hL1 : L1 = L0) (hM1 : M1 = m - 1 + L0 + M0 - H0) (hH1 : H1 = K0 - M0 + L0)
    (hK1 : K1 = m - 1 + M0)
    (hL2 : L2 = L1) (hM2 : M2 = m - 1 + L1 + M1 - H1) (hH2 : H2 = K1 - M1 + L1)
    (hK2 : K2 = m - 1 + M1)
    (hL3 : L3 = L2) (hM3 : M3 = m - 1 + L2 + M2 - H2)
    (hX1 : X1 = y - M0 + L0) (hY1 : Y1 = m - 1 + L0 + M0 - x)
    (hX2 : X2 = Y1 - M1 + L1) (hY2 : Y2 = m - 1 + L1 + M1 - X1)
    (hX3 : X3 = Y2 - M2 + L2) (hY3 : Y3 = m - 1 + L2 + M2 - X2)
    (hX4 : X4 = Y3 - M3 + L3) (hY4 : Y4 = m - 1 + L3 + M3 - X3) :
    X4 = x ∧ Y4 = y + 2 * (2 * (m - 1) - (H0 - L0) - (K0 - M0)) := by
  omega

lemma rot4_coords (ty : Int) (t u1 u2 u3 u4 : Tet)
    (e1 : u1 = rotate_candidate t ty) (e2 : u2 = rotate_candidate u1 ty)
    (e3 : u3 = rotate_candidate u2 ty) (e4 : u4 = rotate_candidate u3 ty) :
    u4.x0 = t.x0 ∧ u4.y0 = t.y0 + rot4_drift t ty ∧
    u4.x1 = t.x1 ∧ u4.y1 = t.y1 + rot4_drift t ty ∧
    u4.x2 = t.x2 ∧ u4.y2 = t.y2 + rot4_drift t ty ∧
    u4.x3 = t.x3 ∧ u4.y3 = t.y3 + rot4_drift t ty := by
  obtain ⟨a5, a6, a7, a8, a9, a10, a11, a12⟩ := rot_coords t ty
  obtain ⟨b5, b6, b7, b8, b9, b10, b11, b12⟩ := rot_coords u1 ty
  obtain ⟨c5, c6, c7, c8, c9, c10, c11, c12⟩ := rot_coords u2 ty
  obtain ⟨d5, d6, d7, d8, d9, d10, d11, d12⟩ := rot_coords u3 ty
  have a1 := rot_lowest_x t ty
  have a2 := rot_lowest_y t ty
  have a3 := rot_highest_x t ty
  have a4 := rot_highest_y t ty
  have b1 := rot_lowest_x u1 ty
  have b2 := rot_lowest_y u1 ty
  have b3 := rot_highest_x u1 ty
  have b4 := rot_highest_y u1 ty
  have c1 := rot_lowest_x u2 ty
  have c2 := rot_lowest_y u2 ty
  rw [← e1] at a1 a2 a3 a4 a5 a6 a7 a8 a9 a10 a11 a12
  rw [← e2] at b1 b2 b3 b4 b5 b6 b7 b8 b9 b10 b11 b12
  rw [← e3] at c1 c2 c5 c6 c7 c8 c9 c10 c11 c12
  rw [← e4] at d5 d6 d7 d8 d9 d10 d11 d12
  have h0 := rot4_cell a1 a2 a3 a4 b1 b2 b3 b4 c1 c2 a5 a6 b5 b6 c5 c6 d5 d6
  have h1 := rot4_cell a1 a2 a3 a4 b1 b2 b3 b4 c1 c2 a7 a8 b7 b8 c7 c8 d7 d8
  have h2 := rot4_cell a1 a2 a3 a4 b1 b2 b3 b4 c1 c2 a9 a10 b9 b10 c9 c10 d9 d10
  have h3 := rot4_cell a1 a2 a3 a4 b1 b2 b3 b4 c1 c2 a11 a12 b11 b12 c11 c12 d11 d12
  simp only [rot4_drift]
  exact ⟨h0.1, h0.2, h1.1, h1.2, h2.1, h2.2, h3.1, h3.2⟩

/-- C2 (amended): for every piece, grid and type, applying
`rotate_tetrominoe` four times in succession with every one of the four
rotated candidate placements passing the collision check does NOT in general
return the piece to its original cells: it yields the original placement
translated straight down by `rot4_drift` rows — the x coordinate of every
cell is restored exactly, and every y coordinate gains the common offset
`2 * (2 * (max_ext - 1) - boxWidth - boxHeight)`.  The original claim (same
four cells) holds exactly when that offset is 0, e.g. for the square
piece. -/
theorem rotate_tetrominoe_four_times (ty : Int) (t0 t1 t2 t3 t4 : Tet)
    (g0 g1 g2 g3 g4 : Grid)
    (s1 : rotate_tetrominoe t0 g0 ty = (t1, g1))
    (s2 : rotate_tetrominoe t1 g1 ty = (t2, g2))
    (s3 : rotate_tetrominoe t2 g2 ty = (t3, g3))
    (s4 : rotate_tetrominoe t3 g3 ty = (t4, g4))
    (h1 : check_tetrominoe_collision (rotate_candidate t0 ty) (clear_tet t0 g0) = true)
    (h2 : check_tetrominoe_collision (rotate_candidate t1 ty) (clear_tet t1 g1) = true)
    (h3 : check_tetrominoe_collision (rotate_candidate t2 ty) (clear_tet t2 g2) = true)
    (h4 : check_tetrominoe_collision (rotate_candidate t3 ty) (clear_tet t3 g3) = true) :
    t4.x0 = t0.x0 ∧ t4.y0 = t0.y0 + rot4_drift t0 ty ∧
    t4.x1 = t0.x1 ∧ t4.y1 = t0.y1 + rot4_drift t0 ty ∧
    t4.x2 = t0.x2 ∧ t4.y2 = t0.y2 + rot4_drift t0 ty ∧
    t4.x3 = t0.x3 ∧ t4.y3 = t0.y3 + rot4_drift t0 ty := by
  simp only [rotate_tetrominoe] at s1 s2 s3 s4
  rw [if_pos h1] at s1
  rw [if_pos h2] at s2
  rw [if_pos h3] at s3
  rw [if_pos h4] at s4
  rw [Prod.mk.injEq] at s1 s2 s3 s4
  exact rot4_coords ty t0 t1 t2 t3 t4 s1.1.symm s2.1.symm s3.1.symm s4.1.symm

/-- The T piece as spawned by `setup_tetrominoe(PIECE_T, 4)`: cells (4,0),
(5,0), (6,0), (5,1). -/
def c2tet : Tet := ⟨4, 0, 5, 0, 6, 0, 5, 1⟩

/-- A playfield holding only that T piece, marked with its colour 0x0300. -/
def c2grid : Grid := fun a b =>
  if (a = 4 ∧ b = 0) ∨ (a = 5 ∧ b = 0) ∨ (a = 6 ∧ b = 0) ∨ (a = 5 ∧ b = 1) then 768 else 0

/-- State after one rotation of the T piece. -/
def c2s1 : Tet × Grid := rotate_tetrominoe c2tet c2grid 6

/-- State after two rotations. -/
def c2s2 : Tet × Grid := rotate_tetrominoe c2s1.1 c2s1.2 6

/-- State after three rotations. -/
def c2s3 : Tet × Grid := rotate_tetrominoe c2s2.1 c2s2.2 6

/-- State after four rotations. -/
def c2s4 : Tet × Grid := rotate_tetrominoe c2s3.1 c2s3.2 6

/-- C2 counterexample: rotating the freshly spawned T piece four times on an
otherwise empty grid — every one of the four intermediate rotated placements
passing the collision check, so none is rejected — does not return it to its
original four cells: the original piece occupies (4, 0), the four-times
rotated piece does not (it has drifted two rows down). -/
theorem rotate_four_times_not_identity :
    check_tetrominoe_collision (rotate_candidate c2tet 6) (clear_tet c2tet c2grid) = true ∧
    check_tetrominoe_collision (rotate_candidate c2s1.1 6) (clear_tet c2s1.1 c2s1.2) = true ∧
    check_tetrominoe_collision (rotate_candidate c2s2.1 6) (clear_tet c2s2.1 c2s2.2) = true ∧
    check_tetrominoe_collision (rotate_candidate c2s3.1 6) (clear_tet c2s3.1 c2s3.2) = true ∧
    occupies c2tet 4 0 = true ∧ occupies c2s4.1 4 0 = false := by
  decide

/-- C2 witness: the amended theorem applied to the concrete T piece run used
by the counterexample (its drift is 2). -/
theorem rotate_tetrominoe_four_times_witness :
    c2s4.1.x0 = c2tet.x0 ∧ c2s4.1.y0 = c2tet.y0 + rot4_drift c2tet 6 ∧
    c2s4.1.x1 = c2tet.x1 ∧ c2s4.1.y1 = c2tet.y1 + rot4_drift c2tet 6 ∧
    c2s4.1.x2 = c2tet.x2 ∧ c2s4.1.y2 = c2tet.y2 + rot4_drift c2tet 6 ∧
    c2s4.1.x3 = c2tet.x3 ∧ c2s4.1.y3 = c2tet.y3 + rot4_drift c2tet 6 :=
  rotate_tetrominoe_four_times 6 c2tet c2s1.1 c2s2.1 c2s3.1 c2s4.1
    c2grid c2s1.2 c2s2.2 c2s3.2 c2s4.2 rfl rfl rfl rfl
    (by decide) (by decide) (by decide) (by decide)

/-- The inner loop of `do_remove_lines` clearing the removed row:
`for (x = 0; x < GRID_SIZE_X; x++) grid[x][r] = 0`. -/
def clear_row (g : Grid) (r : Int) : Grid :=
  (List.range 10).foldl (fun h (x : ℕ) => upd h (x : Int) r 0) g

/-- One pass of the shift loop: `for (x...) grid[x][w] = grid[x][w-1]`,
copying row w-1 into row w (reads are from row w-1, which the pass never
writes, so reading the partially updated grid equals reading the
original). -/
def copy_row_down (g : Grid) (w : Int) : Grid :=
  (List.range 10).foldl (fun h (x : ℕ) => upd h (x : Int) w (h (x : Int) (w - 1))) g

/-- The outer shift loop `for (y = r; y != 0; y--)` of `do_remove_lines`: y
counts down from the removed row to 1, copying each row's predecessor into
it. -/
def shift_rows_down (g : Grid) : Nat → Grid
  | 0 => g
  | y + 1 => shift_rows_down (copy_row_down g ((y : Int) + 1)) y

/-- `do_remove_lines` (kernel.c lines 615-640): process the removal slots in
order; a slot holding -1 is skipped, any other slot r is counted, row r is
cleared, the rows above are shifted down by one, and the slot is reset
to -1.  Returns (count, final slots, final grid). -/
def do_remove_lines (g : Grid) (remove_lines : List Int) : Int × List Int × Grid :=
  remove_lines.foldl
    (fun acc r =>
      if r = -1 then (acc.1, acc.2.1 ++ [r], acc.2.2)
      else (acc.1 + 1, acc.2.1 ++ [(-1 : Int)],
        shift_rows_down (clear_row acc.2.2 r) r.toNat))
    (0, [], g)

/-- Closed form of removing one row r, for comparison with the loop above:
inside the playfield columns, rows 1..r take the contents of the row above
them, while row 0 keeps its old contents — it is cleared only when row 0
itself is the removed row.  Rows below r and columns outside 0..9 are
untouched. -/
def remove_row_model (g : Grid) (r : Int) : Grid := fun x y =>
  if 0 ≤ x ∧ x < 10 then
    (if 1 ≤ y ∧ y ≤ r then g x (y - 1)
     else if y = 0 ∧ r = 0 then 0
     else g x y)
  else g x y

lemma mem_range10_iff (x : Int) :
    (∃ k ∈ List.range 10, (k : Int) = x) ↔ 0 ≤ x ∧ x < 10 := by
  constructor
  · rintro ⟨k, hk, rfl⟩
    have := List.mem_range.mp hk
    omega
  · rintro ⟨h1, h2⟩
    exact ⟨x.toNat, List.mem_range.mpr (by omega), by omega⟩

lemma clear_row_aux (r x y : Int) :
    ∀ (l : List ℕ) (h : Grid),
      (l.foldl (fun h (k : ℕ) => upd h (k : Int) r 0) h) x y =
        if (∃ k ∈ l, (k : Int) = x) ∧ y = r then 0 else h x y := by
  intro l
  induction l with
  | nil => intro h; simp
  | cons a l ih =>
    intro h
    rw [List.foldl_cons, ih]
    by_cases h1 : (∃ k ∈ l, (k : Int) = x) ∧ y = r
    · rw [if_pos h1, if_pos ⟨⟨h1.1.choose, List.mem_cons_of_mem a h1.1.choose_spec.1,
        h1.1.choose_spec.2⟩, h1.2⟩]
    · rw [if_neg h1]
      simp only [upd]
      by_cases h2 : x = (a : Int) ∧ y = r
      · rw [if_pos h2, if_pos ⟨⟨a, List.mem_cons_self a l, h2.1.symm⟩, h2.2⟩]
      · rw [if_neg h2, if_neg ?_]
        rintro ⟨⟨k, hk, rfl⟩, rfl⟩
        rcases List.mem_cons.mp hk with rfl | hk
        · exact h2 ⟨rfl, rfl⟩
        · exact h1 ⟨⟨k, hk, rfl⟩, rfl⟩

lemma clear_row_eval (g : Grid) (r x y : Int) :
    clear_row g r x y = if (0 ≤ x ∧ x < 10) ∧ y = r then 0 else g x y := by
  rw [clear_row, clear_row_aux]
  simp only [mem_range10_iff]

lemma copy_row_aux (w x y : Int) (g : Grid) :
    ∀ (l : List ℕ) (h : Grid), (∀ a b : Int, b = w - 1 → h a b = g a b) →
      (l.foldl (fun h (k : ℕ) => upd h (k : Int) w (h (k : Int) (w - 1))) h) x y =
        if (∃ k ∈ l, (k : Int) = x) ∧ y = w then g x (w - 1) else h x y := by
  intro l
  induction l with
  | nil => intro h _; simp
  | cons a l ih =>
    intro h hagree
    rw [List.foldl_cons]
    have hagree2 : ∀ a2 b : Int, b = w - 1 →
        upd h (a : Int) w (h (a : Int) (w - 1)) a2 b = g a2 b := by
      intro a2 b hb
      simp only [upd]
      rw [if_neg (by omega), hagree a2 b hb]
    rw [ih _ hagree2]
    by_cases h1 : (∃ k ∈ l, (k : Int) = x) ∧ y = w
    · rw [if_pos h1, if_pos ⟨⟨h1.1.choose, List.mem_cons_of_mem a h1.1.choose_spec.1,
        h1.1.choose_spec.2⟩, h1.2⟩]
    · rw [if_neg h1]
      simp only [upd]
      by_cases h2 : x = (a : Int) ∧ y = w
      · rw [if_pos h2, if_pos ⟨⟨a, List.mem_cons_self a l, h2.1.symm⟩, h2.2⟩, h2.1]
        exact hagree _ _ rfl
      · rw [if_neg h2, if_neg ?_]
        rintro ⟨⟨k, hk, rfl⟩, rfl⟩
        rcases List.mem_cons.mp hk with rfl | hk
        · exact h2 ⟨rfl, rfl⟩
        · exact h1 ⟨⟨k, hk, rfl⟩, rfl⟩

lemma copy_row_down_eval (g : Grid) (w x y : Int) :
    copy_row_down g w x y =
      if (0 ≤ x ∧ x < 10) ∧ y = w then g x (w - 1) else g x y := by
  rw [copy_row_down, copy_row_aux w x y g _ _ (fun _ _ _ => rfl)]
  simp only [mem_range10_iff]

lemma shift_rows_down_eval (n : ℕ) (g : Grid) (x y : Int) :
    shift_rows_down g n x y =
      if (0 ≤ x ∧ x < 10) ∧ 1 ≤ y ∧ y ≤ (n : Int) then g x (y - 1) else g x y := by
  induction n generalizing g with
  | zero =>
    simp only [shift_rows_down]
    rw [if_neg (by omega)]
  | succ k ih =>
    simp only [shift_rows_down]
    rw [ih]
    simp only [copy_row_down_eval]
    split_ifs <;> first | rfl | omega | (congr 1; omega)

lemma remove_one_eval (g : Grid) (r : Int) (hr : 0 ≤ r) :
    shift_rows_down (clear_row g r) r.toNat = remove_row_model g r := by
  funext x y
  rw [shift_rows_down_eval]
  simp only [clear_row_eval, remove_row_model]
  split_ifs <;> first | rfl | omega

lemma do_remove_aux :
    ∀ (rl : List Int) (c : Int) (s : List Int) (h : Grid),
      (∀ r ∈ rl, r ≠ -1 → 0 ≤ r) →
      rl.foldl
        (fun acc r =>
          if r = -1 then (acc.1, acc.2.1 ++ [r], acc.2.2)
          else (acc.1 + 1, acc.2.1 ++ [(-1 : Int)],
            shift_rows_down (clear_row acc.2.2 r) r.toNat))
        (c, s, h) =
      (c + (rl.countP (fun r => !(r == -1)) : Int),
       s ++ List.replicate rl.length (-1),
       rl.foldl (fun h2 r => if r = -1 then h2 else remove_row_model h2 r) h) := by
  intro rl
  induction rl with
  | nil => intro c s h _; simp
  | cons r rl ih =>
    intro c s h hr
    rw [List.foldl_cons]
    by_cases hr1 : r = -1
    · rw [if_pos hr1, ih _ _ _ (fun a ha => hr a (List.mem_cons_of_mem r ha))]
      subst hr1
      simp [List.countP_cons, List.replicate_succ]
    · rw [if_neg hr1, ih _ _ _ (fun a ha => hr a (List.mem_cons_of_mem r ha)),
        remove_one_eval _ _ (hr r (List.mem_cons_self r rl) hr1)]
      simp only [Prod.mk.injEq, List.countP_cons, List.foldl_cons, if_neg hr1,
        List.replicate_succ, List.length_cons]
      refine ⟨?_, ?_, trivial⟩
      · have hb : (r == (-1 : Int)) = false := beq_eq_false_iff_ne.mpr hr1
        simp only [hb, Bool.not_false, if_pos]
        push_cast
        omega
      · simp [List.append_assoc]

/-- C3 (amended): after `do_remove_lines` processes slots holding row indices
or the sentinel -1, the return value counts exactly the non-sentinel slots,
every slot is reset to -1, and the final grid is the in-order composition of
the one-row removal operation over the non-sentinel slots — for each removed
row r, rows 1..r take the contents of the row above (so the removed row's
former contents are gone and every row above it has shifted down by one),
while row 0 KEEPS its pre-pass contents (it is cleared only when r = 0
itself); row 0 therefore ends up empty only if it was already empty. -/
theorem do_remove_lines_spec (g : Grid) (rl : List Int)
    (hr : ∀ r ∈ rl, r ≠ -1 → 0 ≤ r ∧ r < 20) :
    (do_remove_lines g rl).1 = (rl.countP (fun r => !(r == -1)) : Int) ∧
    (do_remove_lines g rl).2.1 = List.replicate rl.length (-1) ∧
    (do_remove_lines g rl).2.2 =
      rl.foldl (fun h r => if r = -1 then h else remove_row_model h r) g := by
  rw [do_remove_lines, do_remove_aux rl 0 [] g (fun r h hne => (hr r h hne).1)]
  simp

/-- The grid of the C3 counterexample: one block at (0, 0) — so row 0 is not
empty — and row 5 fully occupied, pending removal. -/
def c3grid : Grid := fun a b =>
  if a = 0 ∧ b = 0 then 7 else if b = 5 ∧ 0 ≤ a ∧ a < 10 then 3 else 0

/-- C3 counterexample: removing row 5 from a grid whose row 0 holds a block
leaves row 0 occupied — `do_remove_lines` never clears row 0 (the shift loop
stops at y = 1), so "row 0 is empty afterwards" is false. -/
theorem do_remove_lines_row0_not_empty :
    (do_remove_lines c3grid [5, -1, -1, -1]).2.2 0 0 ≠ 0 := by decide

/-- C3 witness: the amended theorem applied to the counterexample's input. -/
theorem do_remove_lines_spec_witness :
    (do_remove_lines c3grid [5, -1, -1, -1]).1 =
        (([5, -1, -1, -1] : List Int).countP (fun r => !(r == -1)) : Int) ∧
    (do_remove_lines c3grid [5, -1, -1, -1]).2.1 =
        List.replicate ([5, -1, -1, -1] : List Int).length (-1) ∧
    (do_remove_lines c3grid [5, -1, -1, -1]).2.2 =
      ([5, -1, -1, -1] : List Int).foldl
        (fun h r => if r = -1 then h else remove_row_model h r) c3grid :=
  do_remove_lines_spec c3grid [5, -1, -1, -1] (by decide)

/-- `get_remove_lines` (kernel.c lines 579-597): scan the 20 rows; a row with
any empty cell is skipped (the C goto), a fully occupied row's index is
appended to the removal slots and counted.  Returns (count, rows found in
order). -/
def get_remove_lines (g : Grid) : Int × List Int :=
  (List.range 20).foldl
    (fun acc (y : ℕ) =>
      if (List.range 10).all (fun (x : ℕ) => !(g (x : Int) (y : Int) == 0))
      then (acc.1 + 1, acc.2 ++ [(y : Int)])
      else acc)
    (0, [])

lemma get_remove_aux (g : Grid) :
    ∀ (l : List ℕ) (c : Int) (s : List Int),
      l.foldl
        (fun acc (y : ℕ) =>
          if (List.range 10).all (fun (x : ℕ) => !(g (x : Int) (y : Int) == 0))
          then (acc.1 + 1, acc.2 ++ [(y : Int)])
          else acc)
        (c, s) =
      (c + (l.countP (fun (y : ℕ) =>
          (List.range 10).all (fun (x : ℕ) => !(g (x : Int) (y : Int) == 0))) : Int),
       s ++ (l.filter (fun (y : ℕ) =>
          (List.range 10).all (fun (x : ℕ) => !(g (x : Int) (y : Int) == 0)))).map
            (fun (y : ℕ) => (y : Int))) := by
  intro l
  induction l with
  | nil => intro c s; simp
  | cons a l ih =>
    intro c s
    rw [List.foldl_cons]
    by_cases ha : (List.range 10).all (fun (x : ℕ) => !(g (x : Int) (a : Int) == 0)) = true
    · rw [if_pos ha, ih]
      simp only [Prod.mk.injEq, List.countP_cons, List.filter_cons, ha, if_pos,
        List.length_cons]
      refine ⟨by push_cast; omega, ?_⟩
      simp [List.append_assoc]
    · rw [if_neg ha, ih]
      have ha2 : (List.range 10).all (fun (x : ℕ) => !(g (x : Int) (a : Int) == 0)) = false :=
        Bool.eq_false_iff.mpr ha
      simp only [Prod.mk.injEq, List.countP_cons, List.filter_cons, ha2]
      simp

/-- C6: `get_remove_lines` includes a row index y in the removal set if and
only if all 10 cells of row y are occupied (non-zero) — a row with any empty
cell is never included, a row with 10 occupied cells always is — and the
returned count equals the number of such complete rows. -/
theorem get_remove_lines_spec (g : Grid) :
    ((get_remove_lines g).1 = ((get_remove_lines g).2.length : Int)) ∧
    (∀ y : Int, y ∈ (get_remove_lines g).2 ↔
      (0 ≤ y ∧ y < 20 ∧ ∀ x : Int, 0 ≤ x → x < 10 → g x y ≠ 0)) := by
  rw [get_remove_lines, get_remove_aux g (List.range 20) 0 []]
  constructor
  · simp [List.countP_eq_length_filter]
  · intro y
    simp only [List.nil_append, List.mem_map, List.mem_filter, List.mem_range]
    constructor
    · rintro ⟨n, ⟨hn20, hall⟩, rfl⟩
      refine ⟨by omega, by omega, ?_⟩
      intro x hx0 hx10
      have := List.all_eq_true.mp hall x.toNat (List.mem_range.mpr (by omega))
      simp only [Bool.not_eq_true', beq_eq_false_iff_ne, ne_eq] at this
      have hc : ((x.toNat : ℕ) : Int) = x := by omega
      rw [hc] at this
      exact this
    · rintro ⟨hy0, hy20, hall⟩
      refine ⟨y.toNat, ⟨by omega, ?_⟩, by omega⟩
      refine List.all_eq_true.mpr ?_
      intro x hx
      have hx10 := List.mem_range.mp hx
      simp only [Bool.not_eq_true', beq_eq_false_iff_ne, ne_eq]
      have hc : ((y.toNat : ℕ) : Int) = y := by omega
      rw [hc]
      exact hall (x : Int) (by omega) (by omega)

/-- A grid whose bottom row is complete, for the C6 witness. -/
def c6grid : Grid := fun a b => if b = 19 ∧ 0 ≤ a ∧ a < 10 then 5 else 0

/-- C6 witness: the characterisation applied at a concrete grid and row. -/
theorem get_remove_lines_spec_witness :
    (get_remove_lines c6grid).1 = ((get_remove_lines c6grid).2.length : Int) ∧
    ((19 : Int) ∈ (get_remove_lines c6grid).2 ↔
      (0 ≤ (19 : Int) ∧ (19 : Int) < 20 ∧
        ∀ x : Int, 0 ≤ x → x < 10 → c6grid x 19 ≠ 0)) :=
  ⟨(get_remove_lines_spec c6grid).1, (get_remove_lines_spec c6grid).2 19⟩

/-- The STATE_ROW_REMOVE arm of `tetris`'s state switch (kernel.c lines
900-937), as a function of the counters it reads and writes: add the removed
lines (capped at 9999), add the reward for 1/2/3/4 simultaneous removals
(score capped at 99999999; other counts leave the score alone, matching the
C switch's lack of a default), and advance the level — decrementing the fall
delay by 10 — exactly when the level is not 9 and the capped line count has
reached level*10 + 10.  Returns (lines, score, level, fall_delay). -/
def row_remove_step (lines score level fall_delay lines_removed : Int) :
    Int × Int × Int × Int :=
  let lines2 := lines + lines_removed
  let lines3 := if lines2 > 9999 then 9999 else lines2
  let score2 :=
    if lines_removed = 1 then score + 40 * (level + 1)
    else if lines_removed = 2 then score + 100 * (level + 1)
    else if lines_removed = 3 then score + 300 * (level + 1)
    else if lines_removed = 4 then score + 1200 * (level + 1)
    else score
  let score3 := if score2 > 99999999 then 99999999 else score2
  let level2 := if level ≠ 9 ∧ lines3 ≥ level * 10 + 10 then level + 1 else level
  let fall_delay2 := if level ≠ 9 ∧ lines3 ≥ level * 10 + 10 then fall_delay - 10 else fall_delay
  (lines3, score3, level2, fall_delay2)

/-- C4: in the RowRemove step, for every level 0-9 and simultaneous clear
count n in {1,2,3,4}, the score becomes the old score plus exactly
40/100/300/1200 · (level+1) (clipped at the 99,999,999 cap), the line count
becomes the old count plus n (clipped at 9,999), the level never exceeds 9,
and the level increments — with the fall delay decreasing by 10 — exactly
when level ≠ 9 and the accumulated (capped) lines reach level*10 + 10. -/
theorem row_remove_step_spec (lines score level fall_delay n : Int)
    (hlevel : 0 ≤ level ∧ level ≤ 9) (hn : 1 ≤ n ∧ n ≤ 4) :
    (row_remove_step lines score level fall_delay n).1 = min (lines + n) 9999 ∧
    (row_remove_step lines score level fall_delay n).2.1 =
      min (score +
        (if n = 1 then 40 else if n = 2 then 100 else if n = 3 then 300 else 1200) *
          (level + 1)) 99999999 ∧
    (row_remove_step lines score level fall_delay n).2.2.1 ≤ 9 ∧
    ((level ≠ 9 ∧ min (lines + n) 9999 ≥ level * 10 + 10) →
      ((row_remove_step lines score level fall_delay n).2.2.1 = level + 1 ∧
       (row_remove_step lines score level fall_delay n).2.2.2 = fall_delay - 10)) ∧
    (¬(level ≠ 9 ∧ min (lines + n) 9999 ≥ level * 10 + 10) →
      ((row_remove_step lines score level fall_delay n).2.2.1 = level ∧
       (row_remove_step lines score level fall_delay n).2.2.2 = fall_delay)) := by
  simp only [row_remove_step]
  split_ifs <;> constructor <;> try constructor
  all_goals try constructor
  all_goals try constructor
  all_goals omega

/-- C4 witness: a single line cleared at level 0 from the initial counters. -/
theorem row_remove_step_spec_witness :
    (row_remove_step 0 0 0 90 1).1 = min ((0 : Int) + 1) 9999 ∧
    (row_remove_step 0 0 0 90 1).2.1 =
      min ((0 : Int) +
        (if (1 : Int) = 1 then 40 else if (1 : Int) = 2 then 100
         else if (1 : Int) = 3 then 300 else 1200) * ((0 : Int) + 1)) 99999999 ∧
    (row_remove_step 0 0 0 90 1).2.2.1 ≤ 9 ∧
    (((0 : Int) ≠ 9 ∧ min ((0 : Int) + 1) 9999 ≥ (0 : Int) * 10 + 10) →
      ((row_remove_step 0 0 0 90 1).2.2.1 = 0 + 1 ∧
       (row_remove_step 0 0 0 90 1).2.2.2 = 90 - 10)) ∧
    (¬((0 : Int) ≠ 9 ∧ min ((0 : Int) + 1) 9999 ≥ (0 : Int) * 10 + 10) →
      ((row_remove_step 0 0 0 90 1).2.2.1 = 0 ∧
       (row_remove_step 0 0 0 90 1).2.2.2 = 90)) :=
  row_remove_step_spec 0 0 0 90 1 (by decide) (by decide)

/-- One C assignment `frame[i] = v` on a frame buffer. -/
def upd1 (f : Nat → Int) (i : Nat) (v : Int) : Nat → Int :=
  fun j => if j = i then v else f j

/-- One iteration of `draw_next_frame`'s loop at cell i: when the shown and
desired values differ, copy desired into shown and emit one VGA write of the
new value. -/
def draw_step (next : Nat → Int) (acc : (Nat → Int) × List (Nat × Int)) (i : Nat) :
    (Nat → Int) × List (Nat × Int) :=
  if acc.1 i ≠ next i then (upd1 acc.1 i (next i), acc.2 ++ [(i, next i)]) else acc

/-- `draw_next_frame` (kernel.c lines 248-257): `curr_frame` is the currently
shown buffer, `next_frame` the desired one; the VGA device writes are
returned as the ordered list of (cell index, value written) pairs. -/
def draw_next_frame (curr next : Nat → Int) : (Nat → Int) × List (Nat × Int) :=
  (List.range 2000).foldl (draw_step next) (curr, [])

lemma draw_aux (next : Nat → Int) :
    ∀ (l : List ℕ), l.Nodup → ∀ (c : Nat → Int) (w : List (Nat × Int)),
      l.foldl (draw_step next) (c, w) =
        (fun i => if i ∈ l then next i else c i,
         w ++ (l.filter (fun i => decide (c i ≠ next i))).map (fun i => (i, next i))) := by
  intro l
  induction l with
  | nil =>
    intro _ c w
    simp
  | cons a l ih =>
    intro hnd c w
    have hal : a ∉ l := (List.nodup_cons.mp hnd).1
    have hnd2 : l.Nodup := (List.nodup_cons.mp hnd).2
    rw [List.foldl_cons]
    by_cases hc : c a = next a
    · rw [show draw_step next (c, w) a = (c, w) by simp [draw_step, hc]]
      rw [ih hnd2]
      simp only [Prod.mk.injEq, List.filter_cons]
      constructor
      · funext i
        by_cases hi : i = a
        · subst hi
          simp [hal, hc]
        · simp [hi]
      · simp [hc]
    · rw [show draw_step next (c, w) a =
          (upd1 c a (next a), w ++ [(a, next a)]) by simp [draw_step, hc]]
      rw [ih hnd2]
      simp only [Prod.mk.injEq, List.filter_cons]
      constructor
      · funext i
        by_cases hi : i = a
        · subst hi
          simp [upd1]
        · simp only [List.mem_cons, hi, false_or]
          by_cases hil : i ∈ l
          · simp [hil]
          · simp [hil, upd1, hi]
      · have hfc : l.filter (fun i => decide (upd1 c a (next a) i ≠ next i)) =
            l.filter (fun i => decide (c i ≠ next i)) := by
          refine List.filter_congr ?_
          intro i hi
          have : i ≠ a := fun h => hal (h ▸ hi)
          simp [upd1, this]
        rw [hfc]
        simp [hc, List.append_assoc]

/-- C7: the flush writes to the display exactly those of the 2000 cells whose
desired value differs from the shown value (each once, in index order, with
the desired value), copies desired to shown for those cells, and afterwards
the shown buffer equals the desired buffer on all 2000 cells. -/
theorem draw_next_frame_spec (curr next : Nat → Int) :
    (∀ i, i < 2000 → (draw_next_frame curr next).1 i = next i) ∧
    ((draw_next_frame curr next).2 =
      ((List.range 2000).filter (fun i => decide (curr i ≠ next i))).map
        (fun i => (i, next i))) ∧
    (∀ i v, (i, v) ∈ (draw_next_frame curr next).2 ↔
      (i < 2000 ∧ curr i ≠ next i ∧ v = next i)) := by
  rw [draw_next_frame, draw_aux next (List.range 2000) (List.nodup_range 2000) curr []]
  refine ⟨?_, by simp, ?_⟩
  · intro i hi
    simp [List.mem_range, hi]
  · intro i v
    simp only [List.nil_append, List.mem_map, List.mem_filter, List.mem_range,
      decide_eq_true_eq, Prod.mk.injEq]
    constructor
    · rintro ⟨n, ⟨hn, hne⟩, rfl, rfl⟩
      exact ⟨hn, hne, rfl⟩
    · rintro ⟨hi, hne, rfl⟩
      exact ⟨i, ⟨hi, hne⟩, rfl, rfl⟩

/-- A shown buffer differing from the desired one at cell 3 only, for the C7
witness. -/
def c7curr : Nat → Int := fun i => if i = 3 then 1 else 0

/-- The desired buffer of the C7 witness: all cells 0. -/
def c7next : Nat → Int := fun _ => 0

/-- C7 witness: after the flush, the shown buffer agrees with the desired
buffer at the one changed cell. -/
theorem draw_next_frame_spec_witness :
    (draw_next_frame c7curr c7next).1 3 = c7next 3 :=
  (draw_next_frame_spec c7curr c7next).1 3 (by omega)

/-- `scancode_table` (kernel.c lines 24-29): the 58 initialized entries, as
character codes ('a' = 97 at index 0x1E); the remaining entries of the
128-byte C array are zero, which `List.getD`'s default supplies. -/
def scancode_table : List Nat :=
  [0, 27, 49, 50, 51, 52, 53, 54, 55, 56, 57, 48, 45, 61, 8,
   9, 113, 119, 101, 114, 116, 121, 117, 105, 111, 112, 91, 93, 10, 0,
   97, 115, 100, 102, 103, 104, 106, 107, 108, 59, 39, 96, 0, 92,
   122, 120, 99, 118, 98, 110, 109, 44, 46, 47, 0, 42, 0, 32]

/-- `read_keyb` (kernel.c lines 32-49): decode the pending scan code byte —
a set 0x80 bit means release (the code is masked to its low 7 bits before
the table lookup), a clear bit means press — and clear the pending slot.
Returns (decoded character, pressed flag, final pending scan code). -/
def read_keyb (scancode : Nat) : Nat × Bool × Nat :=
  let pressed := if scancode.land 128 ≠ 0 then false else true
  let sc2 := if scancode.land 128 ≠ 0 then scancode.land 127 else scancode
  let keyb_char := if 0 < sc2 ∧ sc2 ≤ 127 then scancode_table.getD sc2 0 else 0
  (keyb_char, pressed, 0)

set_option maxRecDepth 10000 in
set_option maxHeartbeats 2000000 in
/-- C8: for every scan code byte, a set high bit decodes press = false with
the value masked to its low 7 bits before the 128-entry table lookup, a
clear high bit decodes press = true with the value looked up directly, and
the decoded character is the table entry at the (masked) index — null for
unmapped entries.  In particular 0x1E decodes to 'a' (97) with press = true
and 0x9E to 'a' with press = false. -/
theorem read_keyb_spec :
    (∀ sc : Nat, sc < 256 →
      (sc.land 128 ≠ 0 →
        (read_keyb sc).2.1 = false ∧
        (read_keyb sc).1 = scancode_table.getD (sc.land 127) 0) ∧
      (sc.land 128 = 0 →
        (read_keyb sc).2.1 = true ∧
        (read_keyb sc).1 = scancode_table.getD sc 0) ∧
      (read_keyb sc).2.2 = 0) ∧
    read_keyb 0x1E = (97, true, 0) ∧ read_keyb 0x9E = (97, false, 0) := by
  decide

/-- `pit_set_frequency` (kernel.c lines 103-115): a zero frequency returns
immediately; otherwise the divisor 1193182 / hz (1 when the quotient is 0)
is programmed after the mode command 0x34.  The device writes are returned
as the ordered list of (port, byte) pairs. -/
def pit_set_frequency (hz : Nat) : List (Nat × Nat) :=
  if hz = 0 then []
  else
    let divisor := 1193182 / hz
    let divisor2 := if divisor = 0 then 1 else divisor
    let lo := divisor2.land 255
    let hi := (divisor2 >>> 8).land 255
    [(0x43, 0x34), (0x40, lo), (0x40, hi)]

/-- C9: for hz = 0 the operation performs no device writes at all; for
hz > 0 it writes the mode command 0x34 to port 0x43, then the divisor
1193182 / hz (with 1 substituted when the quotient is 0) to port 0x40 as its
low byte followed by its high byte. -/
theorem pit_set_frequency_spec (hz : Nat) :
    (hz = 0 → pit_set_frequency hz = []) ∧
    (0 < hz →
      pit_set_frequency hz =
        [(0x43, 0x34),
         (0x40, (if 1193182 / hz = 0 then 1 else 1193182 / hz) % 256),
         (0x40, (if 1193182 / hz = 0 then 1 else 1193182 / hz) / 256 % 256)]) := by
  constructor
  · intro h
    simp [pit_set_frequency, h]
  · intro h
    have h0 : ¬ hz = 0 := by omega
    have hlo : ∀ d : Nat, d.land 255 = d % 256 := fun d => by
      have := Nat.and_pow_two_sub_one_eq_mod d 8
      simpa using this
    simp only [pit_set_frequency]
    rw [if_neg h0, hlo, hlo, Nat.shiftRight_eq_div_pow]

/-- C9 witness: the two arms at concrete frequencies 0 and 100. -/
theorem pit_set_frequency_spec_witness :
    pit_set_frequency 0 = [] ∧
    pit_set_frequency 100 =
      [(0x43, 0x34),
       (0x40, (if 1193182 / 100 = 0 then 1 else 1193182 / 100) % 256),
       (0x40, (if 1193182 / 100 = 0 then 1 else 1193182 / 100) / 256 % 256)] :=
  ⟨(pit_set_frequency_spec 0).1 rfl, (pit_set_frequency_spec 100).2 (by omega)⟩

/-- C10: invoked with no pending scan code (the shared byte is 0),
`read_keyb` yields the null character and leaves the pending slot at 0, but
reports the press flag as true rather than false — a consumer must test the
decoded character, not the press flag, to detect that no key event
arrived. -/
theorem read_keyb_no_pending : read_keyb 0 = (0, true, 0) := by decide

end BareMetalTetris
